import Mathlib

/-!
# Verification of the lp_tracker command concurrency core

A shallow embedding of the Discord command layer of `lp_tracker`
(`discord/commands.go`), of the tracking service (`services/riot.go`,
second file: `PlayerService`), and of the player repository
(`repositories/player.go`), together with proofs about the worker-pool
admission gate, the timeout/result racing protocol, the in-memory
statistics tracker, the batch refresh loop, command dispatch, the
repository lookup convention and the list rendering.

Machine integers (`int64`, `time.Duration`) are modelled as `Int`;
Go's integer division truncates toward zero, which is `Int.tdiv`.
Wall-clock instants and durations are integers counted in nanoseconds,
as in Go's `time.Duration`.
-/

namespace LpTracker

/-- Go's `time.Second` expressed in nanoseconds (`time.Duration` units). -/
def second : Int := 1000000000

/-- `models.Player` (models/player.go): the fields read by the command layer
and by the tracking service.  The Mongo object id and the timestamps are
not consulted by any verified path and are omitted. -/
structure Player where
  puuid : String
  gameName : String
  tagLine : String
  server : String
  summonerLevel : Int
  tier : String
  rank : String
  leaguePoints : Int
  wins : Int
  losses : Int
deriving Repr, DecidableEq

/-- `discord.CommandStats` (discord/commands.go:26-31): the three counters
guarded by the single mutex.  `totalCommands` and `activeCommands` are
`int64`, `averageTime` is a `time.Duration` (an `int64` nanosecond count). -/
structure CommandStats where
  totalCommands : Int
  activeCommands : Int
  averageTime : Int
deriving Repr, DecidableEq

/-- The zero-valued `&CommandStats{}` installed by `NewCommandHandler`
(discord/commands.go:39). -/
def CommandStats.init : CommandStats := ⟨0, 0, 0⟩

/-- `CommandHandler.updateStats` (discord/commands.go:281-295), the body run
under the mutex: `delta > 0` is the start update (increment total and
active), otherwise the end update (decrement active); independently, a
positive `duration` folds into the running average by
`averageTime = (averageTime + duration) / 2` with Go's truncating `int64`
division. -/
def updateStats (s : CommandStats) (delta : Int) (duration : Int) : CommandStats :=
  let s' :=
    if delta > 0 then
      { s with totalCommands := s.totalCommands + 1,
               activeCommands := s.activeCommands + 1 }
    else
      { s with activeCommands := s.activeCommands - 1 }
  if duration > 0 then
    { s' with averageTime := Int.tdiv (s'.averageTime + duration) 2 }
  else
    s'

/-- The two registered slash commands (discord/commands.go:43-85). -/
inductive CmdKind where
  | addPlayer
  | listPlayers
deriving Repr, DecidableEq

/-- Per-command wall-clock budget of the deadline race:
`context.WithTimeout(..., 30*time.Second)` in `processAddPlayer`
(discord/commands.go:144) and `context.WithTimeout(..., 10*time.Second)`
in `handleListPlayersAsync` (discord/commands.go:193). -/
def commandTimeout : CmdKind → Int
  | .addPlayer => 30 * second
  | .listPlayers => 10 * second

/-- Capacity of the worker-pool channel:
`workerPool: make(chan struct\x7b\x7d, 2)` (discord/commands.go:38). -/
def poolCapacity : Nat := 2

/-- Lifecycle phase of one spawned handler goroutine
(`handleAddPlayerAsync` / `handleListPlayersAsync`):
`spawned` — dispatched by `HandleInteraction` but still blocked on
`h.workerPool <- struct\x7b\x7d` (commands.go:113/175);
`running` — holding a pool slot, executing the handler body;
`completed` — the deferred `<-h.workerPool` has returned the slot
(commands.go:115/176). -/
inductive Phase where
  | spawned
  | running
  | completed
deriving Repr, DecidableEq

/-- Process state for the admission gate: one entry per dispatched handler
goroutine, tagged with the command it executes. -/
abbrev SysState := List (CmdKind × Phase)

/-- Number of handler goroutines currently holding a pool slot, i.e. the
occupancy of the `workerPool` channel. -/
def runningCount : SysState → Nat
  | [] => 0
  | c :: rest => (if c.2 = Phase.running then 1 else 0) + runningCount rest

/-- Interleaving semantics of the admission gate.  `dispatch` models
`HandleInteraction` spawning a handler goroutine; `acquire` models the
channel send `h.workerPool <- struct\x7b\x7d`, which can only proceed while
the channel holds fewer than `poolCapacity` tokens; `release` models the
deferred receive `<-h.workerPool`. -/
inductive Step : SysState → SysState → Prop where
  | dispatch (s : SysState) (k : CmdKind) :
      Step s (s ++ [(k, Phase.spawned)])
  | acquire (l r : List (CmdKind × Phase)) (k : CmdKind)
      (h : runningCount (l ++ (k, Phase.spawned) :: r) < poolCapacity) :
      Step (l ++ (k, Phase.spawned) :: r) (l ++ (k, Phase.running) :: r)
  | release (l r : List (CmdKind × Phase)) (k : CmdKind) :
      Step (l ++ (k, Phase.running) :: r) (l ++ (k, Phase.completed) :: r)

/-- States reachable from process start (no handler spawned yet). -/
inductive Reachable : SysState → Prop where
  | init : Reachable []
  | step {s s' : SysState} : Reachable s → Step s s' → Reachable s'

/-- `CommandHandler.HandleInteraction` (discord/commands.go:101-109): the
switch on the interaction's command name; the two registered names spawn
the matching handler, any other name falls through the switch. -/
def handleInteraction (name : String) : Option CmdKind :=
  if name = "add_player" then some CmdKind.addPlayer
  else if name = "list_players" then some CmdKind.listPlayers
  else none

/-- Effect of one inbound interaction on the process state: a recognized
name spawns the matching handler goroutine (`go h.handle...Async`),
an unrecognized name leaves the process untouched. -/
def dispatchEffect (name : String) (s : SysState) : SysState :=
  match handleInteraction name with
  | some k => s ++ [(k, Phase.spawned)]
  | none => s

/-- The user-visible outcome class of one command execution: the
business-logic result delivered first (`success` message or `failure`
message), or the deadline elapsed first (`timeout` message). -/
inductive ExecResult where
  | success
  | failure
  | timeout
deriving Repr, DecidableEq

/-- Observable actions of one handler goroutine, in program order. -/
inductive HandlerAct where
  | acquire
  | statStart
  | ack (ok : Bool)
  | work (r : ExecResult)
  | statEnd (d : Int)
  | release
deriving Repr, DecidableEq

/-- Linearized action trace of one handler goroutine.  Both handlers share
this shape (discord/commands.go:111-135 and 174-218): send on the worker
pool (113/175), `updateStats(1, 0)` (119/180), the deferred-acknowledgement
attempt `InteractionRespond` (125/185); if that fails the handler returns
early, otherwise the body runs; on return the deferred functions run in
LIFO order: first `updateStats(-1, time.Since(start))` (120-122/181-183),
then the pool receive (115/176). -/
def handlerActs (ackOk : Bool) (r : ExecResult) (d : Int) : List HandlerAct :=
  [HandlerAct.acquire, HandlerAct.statStart, HandlerAct.ack ackOk] ++
    (if ackOk then [HandlerAct.work r] else []) ++
    [HandlerAct.statEnd d, HandlerAct.release]

/-- The two kinds of calls into `updateStats`: `updateStats(1, 0)` at
handler entry and `updateStats(-1, elapsed)` from the deferred function. -/
inductive StatEvent where
  | start
  | finish (d : Int)
deriving Repr, DecidableEq

/-- One `updateStats` call, dispatched on the event kind. -/
def applyStatEvent (s : CommandStats) : StatEvent → CommandStats
  | .start => updateStats s 1 0
  | .finish d => updateStats s (-1) d

/-- Sequential effect of a list of `updateStats` calls (the mutex
serializes them into some list order). -/
def applyStatTrace (s : CommandStats) (es : List StatEvent) : CommandStats :=
  es.foldl applyStatEvent s

/-- The statistics updates issued along a handler action trace. -/
def statEventsOf (acts : List HandlerAct) : List StatEvent :=
  acts.filterMap fun a =>
    match a with
    | .statStart => some StatEvent.start
    | .statEnd d => some (StatEvent.finish d)
    | _ => none

/-- How `processAddPlayer` classifies the value received on `resultChan`
(discord/commands.go:161-167): a non-nil error goes to
`handleAddPlayerErrors`, otherwise `sendAppPlayerSuccess`. -/
def classifyAdd (res : Except String Player) : ExecResult :=
  match res with
  | .ok _ => ExecResult.success
  | .error _ => ExecResult.failure

/-- How `handleListPlayersAsync` classifies the channel that fires
(discord/commands.go:209-214): `playersChan` goes to `sendPlayersList`,
`errorChan` to the failure follow-up. -/
def classifyList (res : Except String (List Player)) : ExecResult :=
  match res with
  | .ok _ => ExecResult.success
  | .error _ => ExecResult.failure

/-- The `select` race of `processAddPlayer` (discord/commands.go:160-171)
and `handleListPlayersAsync` (209-217): the business goroutine sends its
result (classified as `done`) on a buffered channel at instant `tDone`,
the context's deadline fires at instant `deadline`, and the select takes
whichever case is ready first; when both are ready (a tie) Go picks one of
them nondeterministically, so both outcomes are related. -/
inductive SelectRace (deadline tDone : Int) (done : ExecResult) : ExecResult → Prop where
  | resultFirst : tDone ≤ deadline → SelectRace deadline tDone done done
  | deadlineFirst : deadline ≤ tDone → SelectRace deadline tDone done ExecResult.timeout

/-- The absolute deadline of the context that `processAddPlayer` creates
with `context.WithTimeout(context.Background(), 30*time.Second)`
(discord/commands.go:144) when it starts at instant `t0`.  This SAME
context is the `ctx` argument given to `h.playerService.AddPlayer`
(discord/commands.go:155). -/
def processAddPlayerDeadline (t0 : Int) : Int := t0 + 30 * second

/-- A context-aware blocking operation (an HTTP request built with
`http.NewRequestWithContext` in `makeAPIRequest`, riot.go:206-232, or a
Mongo driver call taking `ctx`) started at instant `t` and needing `d`
time succeeds exactly when it finishes strictly before the context
deadline `dl`; otherwise the standard library aborts it with
"context deadline exceeded" the moment the deadline passes:
at `max t dl` — immediately when the context is already expired, at the
deadline when it expires mid-call. -/
def ctxOpAbortsAt (dl t : Int) : Int := max t dl

/-- Time needed by each of the five blocking operations that
`PlayerService.AddPlayer` chains (riot.go service file, lines 296-320):
the repository pre-check, the three provider HTTP calls of
`GetPlayerByRiotID`, and the repository `Create`. -/
structure AddPlayerDurations where
  find : Int
  account : Int
  summoner : Int
  league : Int
  create : Int
deriving Repr, DecidableEq

/-- Timed outcome of one `PlayerService.AddPlayer` goroutine: the value it
sends on `resultChan`, the instant it sends it, and whether the
repository `Create` wrote the record to the store. -/
structure AddPlayerRun where
  result : Except String Player
  finishedAt : Int
  storeWritten : Bool
deriving Repr

/-- Timed model of `PlayerService.AddPlayer` (riot.go service file,
296-320) run by the goroutine that `processAddPlayer` spawns with the
SAME context `ctx` that carries the 30-second deadline
(discord/commands.go:144,154-157).  Operations in program order:
`playerRepo.FindByRiotID` (Mongo `FindOne` with `ctx`), then
`GetPlayerByRiotID` = `getAccountByRiotID`, `getSummonerByPUUID`,
`getLeagueEntriesBySummonerID` (three chained HTTP calls with `ctx`; a
league-entries failure is tolerated and falls back to UNRANKED defaults,
riot.go:83-107, but the time it consumed has passed), then
`playerRepo.Create` (Mongo `InsertOne` with `ctx`).  `dl` is the absolute
deadline of that shared context, each operation succeeds only if it ends
strictly before `dl` and is otherwise aborted at `ctxOpAbortsAt dl`.
`tracked` says whether the pre-check finds an existing record
(`existingPlayer != nil`, riot.go:303), `fetched` stands for the record the
provider path builds (its rank fields are irrelevant to the timing and
store-write facts proved here). -/
def addPlayerTimed (dl t0 : Int) (dur : AddPlayerDurations)
    (gameName tagLine server : String) (tracked : Bool)
    (fetched : Player) : AddPlayerRun :=
  if t0 + dur.find < dl then
    let t1 := t0 + dur.find
    if tracked then
        ⟨Except.error ("player " ++ gameName ++ "#" ++ tagLine ++ " (" ++
            server ++ ") is already being tracked"), t1, false⟩
    else
      if t1 + dur.account < dl then
        let t2 := t1 + dur.account
        if t2 + dur.summoner < dl then
          let t3 := t2 + dur.summoner
          let t4 :=
            if t3 + dur.league < dl then t3 + dur.league
            else ctxOpAbortsAt dl t3
          if t4 + dur.create < dl then
            ⟨Except.ok fetched, t4 + dur.create, true⟩
          else
            ⟨Except.error
                "failed to save player: context deadline exceeded",
              ctxOpAbortsAt dl t4, false⟩
        else
          ⟨Except.error
              "failed to fetch player from Riot API: failed to get summoner: context deadline exceeded",
            ctxOpAbortsAt dl t2, false⟩
      else
        ⟨Except.error
            "failed to fetch player from Riot API: player not found: context deadline exceeded",
          ctxOpAbortsAt dl t1, false⟩
  else
    ⟨Except.error "failed to check existing player: context deadline exceeded",
      ctxOpAbortsAt dl t0, false⟩

/-- Observable actions of the `UpdateAllPlayers` loop: one `update` per
tracked player (labelled and tagged with its outcome) and the
`time.Sleep(1 * time.Second)` pacing call. -/
inductive RefreshAct where
  | update (label : String) (ok : Bool)
  | sleepOneSec
deriving Repr, DecidableEq

/-- The `gameName#tagLine` label used in the per-player error message of
`UpdateAllPlayers` (riot.go service file, line 360). -/
def playerLabel (p : Player) : String := p.gameName ++ "#" ++ p.tagLine

/-- Result of the `UpdateAllPlayers` loop: the store contents after the
batch, the accumulated error messages, and the action trace. -/
structure RefreshOutcome where
  store : List Player
  errs : List String
  acts : List RefreshAct
deriving Repr, DecidableEq

/-- Loop body of `PlayerService.UpdateAllPlayers` (riot.go service file,
lines 356-368) over the fetched records.  Each player goes through
`UpdatePlayer` (provider rank fetch + repository save, riot.go:333-347),
modelled by the oracle `upd`: on error the formatted message is
accumulated and `continue` moves straight to the next player — skipping
the `time.Sleep`; on success the updated record is persisted and the loop
sleeps one second (even after the last player). -/
def updateAllLoop (upd : Player → Except String Player) :
    List Player → RefreshOutcome
  | [] => ⟨[], [], []⟩
  | p :: rest =>
    match upd p with
    | .error e =>
        let r := updateAllLoop upd rest
        ⟨p :: r.store,
          ("Failed to update player " ++ playerLabel p ++ ": " ++ e) :: r.errs,
          RefreshAct.update (playerLabel p) false :: r.acts⟩
    | .ok p' =>
        let r := updateAllLoop upd rest
        ⟨p' :: r.store, r.errs,
          RefreshAct.update (playerLabel p) true ::
            RefreshAct.sleepOneSec :: r.acts⟩

/-- Aggregate result of `UpdateAllPlayers` (riot.go:370-374): an error
naming every failed player if and only if at least one per-player update
failed (`%v` renders the Go slice as a bracketed list). -/
def updateAllPlayersResult (upd : Player → Except String Player)
    (players : List Player) : Except String Unit :=
  let r := updateAllLoop upd players
  if r.errs.isEmpty then Except.ok ()
  else
    Except.error ("some players failed to update: [" ++
      String.intercalate " " r.errs ++ "]")

/-- The claim's pacing reading: a pacing delay separates every pair of
consecutive update actions, i.e. no update is immediately followed by
another update. -/
def noAdjacentUpdates : List RefreshAct → Bool
  | RefreshAct.update _ _ :: RefreshAct.update _ _ :: _ => false
  | _ :: rest => noAdjacentUpdates rest
  | [] => true

/-- What the code actually guarantees about pacing: every SUCCESSFUL
update action is immediately followed by a one-second sleep (a failed
update proceeds directly to the next player). -/
def sleepAfterSuccess : List RefreshAct → Bool
  | [] => true
  | RefreshAct.update _ true :: rest =>
      match rest with
      | RefreshAct.sleepOneSec :: _ => sleepAfterSuccess rest
      | _ => false
  | _ :: rest => sleepAfterSuccess rest

/-- A three-player batch for the spec's `RefreshAll` scenario. -/
def samplePlayers : List Player :=
  [⟨"u1", "Alpha", "1", "euw1", 10, "GOLD", "I", 1, 0, 0⟩,
   ⟨"u2", "Beta", "2", "euw1", 10, "GOLD", "I", 1, 0, 0⟩,
   ⟨"u3", "Gamma", "3", "euw1", 10, "GOLD", "I", 1, 0, 0⟩]

/-- Update oracle for the scenario: the upstream call fails for player 2
(`Beta`) and succeeds (bumping the summoner level) for everyone else. -/
def failBeta : Player → Except String Player := fun p =>
  if p.gameName == "Beta" then Except.error "upstream failure"
  else Except.ok { p with summonerLevel := p.summonerLevel + 1 }

/-- The Mongo filter of `PlayerRepository.FindByRiotID`
(repositories/player.go:63-67): the (gameName, tagLine, server) triple. -/
def matchesRiotID (g t sv : String) (p : Player) : Bool :=
  p.gameName == g && p.tagLine == t && p.server == sv

/-- `PlayerRepository.FindByRiotID` (repositories/player.go:60-78).
`storeErr` is a store failure of `FindOne(...).Decode` other than
`mongo.ErrNoDocuments`; with a healthy store the result is the matching
document, and an absent document is `mongo.ErrNoDocuments`, translated to
`(nil, nil)` — `ok none`, NOT an error (player.go:71-73). -/
def findByRiotID (storeErr : Option String) (store : List Player)
    (g t sv : String) : Except String (Option Player) :=
  match storeErr with
  | some e => Except.error ("failed to find player: " ++ e)
  | none =>
      match store.find? (matchesRiotID g t sv) with
      | some p => Except.ok (some p)
      | none => Except.ok none

/-- Continuation of `PlayerService.AddPlayer` once the pre-check judged
the identity untracked (riot.go service file, 307-319): fetch the player
from the provider, then persist it. -/
def addPlayerProceed (lookupRes : Except String Player)
    (createRes : Except String Unit) : Except String Player :=
  match lookupRes with
  | .error e => Except.error ("failed to fetch player from Riot API: " ++ e)
  | .ok player =>
      match createRes with
      | .error e => Except.error ("failed to save player: " ++ e)
      | .ok _ => Except.ok player

/-- Control flow of `PlayerService.AddPlayer` (riot.go service file,
296-320) over the pre-check result: a pre-check error aborts with a
check-failure, a found record aborts with the already-tracked error, and
only the `(nil, nil)` absent case proceeds to lookup and persistence. -/
def addPlayerFlow (g t sv : String) (findRes : Except String (Option Player))
    (lookupRes : Except String Player) (createRes : Except String Unit) :
    Except String Player :=
  match findRes with
  | .error e => Except.error ("failed to check existing player: " ++ e)
  | .ok (some _) =>
      Except.error ("player " ++ g ++ "#" ++ t ++ " (" ++ sv ++
        ") is already being tracked")
  | .ok none => addPlayerProceed lookupRes createRes

/-- The per-entry rank line of the list rendering
(discord/commands.go:266-271). -/
def rankInfoLine (p : Player) : String :=
  if p.tier = "UNRANKED" then "🆕 Unranked"
  else "🏆 " ++ p.tier ++ " " ++ p.rank ++ " " ++
    toString p.leaguePoints ++ " LP"

/-- One player entry of the list body (discord/commands.go:273-275). -/
def playerEntry (p : Player) : String :=
  "👤 **" ++ p.gameName ++ "#" ++ p.tagLine ++ "** (" ++
    p.server.toUpper ++ ")\n   📊 Level " ++ toString p.summonerLevel ++
    " • " ++ rankInfoLine p ++ "\n\n"

/-- The truncation line written at index 20 (discord/commands.go:262),
with the count of players left out. -/
def morePlayersLine (total : Nat) : String :=
  "... and " ++ toString (total - 20) ++ " more players\n"

/-- The range loop of `sendPlayersList` (discord/commands.go:260-276):
writes one entry per player while `idx < 20`; upon reaching `idx = 20` it
writes the `... and N more players` line and breaks. -/
def playersBody (total : Nat) : List Player → Nat → String
  | [], _ => ""
  | p :: rest, idx =>
      if idx ≥ 20 then morePlayersLine total
      else playerEntry p ++ playersBody total rest (idx + 1)

/-- Concatenation of a list of strings, used to state the closed form of
the rendered body. -/
def concatAll : List String → String
  | [] => ""
  | x :: rest => x ++ concatAll rest

/-- Message content produced by `sendPlayersList`
(discord/commands.go:251-279): a dedicated message for an empty list,
otherwise a header carrying the full count followed by the body loop. -/
def sendPlayersList (players : List Player) : String :=
  if players.length = 0 then
    "📭 No players tracked yet!\nUse `/add_player` to start tracking."
  else
    "📋 **Tracked Players (" ++ toString players.length ++ ")**\n\n" ++
      playersBody players.length players 0

end LpTracker

namespace LpTracker

/-- Splitting `runningCount` over a concatenation. -/
theorem runningCount_append (a b : SysState) :
    runningCount (a ++ b) = runningCount a + runningCount b := by
  induction a with
  | nil => simp [runningCount]
  | cons c rest ih => simp [runningCount, ih]; omega

/-- `applyStatTrace` over a concatenation of traces. -/
theorem applyStatTrace_append (s : CommandStats) (a b : List StatEvent) :
    applyStatTrace s (a ++ b) = applyStatTrace (applyStatTrace s a) b :=
  List.foldl_append applyStatEvent s a b

/-- C5: the stats-end update `updateStats(-1, d)` decrements the active
count, leaves the total count unchanged, and replaces the running average
by `(average + d) / 2` (truncating division) exactly when `d > 0`; a
non-positive duration leaves the average unchanged. -/
theorem recordEnd_stats_update (s : CommandStats) (d : Int) :
    (updateStats s (-1) d).activeCommands = s.activeCommands - 1 ∧
    (updateStats s (-1) d).totalCommands = s.totalCommands ∧
    (updateStats s (-1) d).averageTime =
      (if d > 0 then Int.tdiv (s.averageTime + d) 2 else s.averageTime) := by
  unfold updateStats
  have h : ¬ ((-1 : Int) > 0) := by decide
  simp only [h, if_false]
  split <;> simp

/-- C6 counterexample: starting from fresh statistics, after two completions
of durations 4 s then 6 s the running average is NOT 5 s (the claim's
`(4 + 6)/2` value); the smoothing recurrence feeds back the previous
average, not the previous duration. -/
theorem average_after_4s_6s_not_5s :
    (updateStats (updateStats CommandStats.init (-1) (4 * second))
        (-1) (6 * second)).averageTime ≠ 5 * second := by
  decide

/-- C6 (amended): from fresh statistics, the average after a 4 s completion
is `(0 + 4 s)/2 = 2 s`, and after a further 6 s completion it is
`(2 s + 6 s)/2 = 4 s`. -/
theorem average_after_4s_6s :
    (updateStats CommandStats.init (-1) (4 * second)).averageTime =
      Int.tdiv (0 + 4 * second) 2 ∧
    (updateStats (updateStats CommandStats.init (-1) (4 * second))
        (-1) (6 * second)).averageTime =
      Int.tdiv (2 * second + 6 * second) 2 := by
  decide

/-- C1: the worker pool has fixed capacity 2; every handler's first action
is the pool acquisition (before any work); and in every reachable state of
the admission-gate semantics at most `poolCapacity` handler goroutines
(of either command kind) are executing concurrently. -/
theorem pool_concurrency_bound :
    poolCapacity = 2 ∧
    (∀ (ackOk : Bool) (r : ExecResult) (d : Int),
        (handlerActs ackOk r d).head? = some HandlerAct.acquire) ∧
    (∀ s : SysState, Reachable s → runningCount s ≤ poolCapacity) := by
  refine ⟨rfl, fun _ _ _ => rfl, ?_⟩
  intro s h
  induction h with
  | init => simp [runningCount]
  | step _ hs ih =>
    cases hs with
    | dispatch s k =>
        rw [runningCount_append]
        simpa [runningCount] using ih
    | acquire l r k hlt =>
        rw [runningCount_append] at ih hlt ⊢
        simp [runningCount, poolCapacity] at ih hlt ⊢
        omega
    | release l r k =>
        rw [runningCount_append] at ih ⊢
        simp [runningCount] at ih ⊢
        omega

/-- C1 witness: a concrete reachable state (one AddPlayer handler holding a
slot, one ListPlayers handler still waiting) respects the bound. -/
theorem pool_concurrency_bound_witness :
    runningCount
        [(CmdKind.addPlayer, Phase.running), (CmdKind.listPlayers, Phase.spawned)]
      ≤ poolCapacity :=
  pool_concurrency_bound.2.2 _
    (Reachable.step
      (Reachable.step
        (Reachable.step Reachable.init (Step.dispatch [] CmdKind.addPlayer))
        (Step.dispatch [(CmdKind.addPlayer, Phase.spawned)] CmdKind.listPlayers))
      (Step.acquire [] [(CmdKind.listPlayers, Phase.spawned)] CmdKind.addPlayer
        (by decide)))

/-- C8: an interaction whose command name is neither registered name is
dropped by the dispatch switch: no handler is resolved, no goroutine is
spawned, and the process state (hence the pool and the statistics) is
untouched. -/
theorem unrecognized_command_no_action (name : String) (s : SysState)
    (h1 : name ≠ "add_player") (h2 : name ≠ "list_players") :
    handleInteraction name = none ∧ dispatchEffect name s = s := by
  constructor
  · simp [handleInteraction, h1, h2]
  · simp [dispatchEffect, handleInteraction, h1, h2]

/-- C8 witness: the concrete unrecognized name "remove_player" is dropped. -/
theorem unrecognized_command_no_action_witness :
    handleInteraction "remove_player" = none ∧
    dispatchEffect "remove_player"
        [(CmdKind.addPlayer, Phase.running)] =
      [(CmdKind.addPlayer, Phase.running)] :=
  unrecognized_command_no_action "remove_player"
    [(CmdKind.addPlayer, Phase.running)] (by decide) (by decide)

/-- Stats effect of one complete handler execution: the active count is
restored and the total count grows by one, on every exit path. -/
theorem statTrace_one_run (s : CommandStats) (ackOk : Bool) (r : ExecResult)
    (d : Int) :
    (applyStatTrace s (statEventsOf (handlerActs ackOk r d))).activeCommands =
      s.activeCommands ∧
    (applyStatTrace s (statEventsOf (handlerActs ackOk r d))).totalCommands =
      s.totalCommands + 1 := by
  have htr : statEventsOf (handlerActs ackOk r d) =
      [StatEvent.start, StatEvent.finish d] := by
    cases ackOk <;> rfl
  rw [htr]
  simp only [applyStatTrace, List.foldl_cons, List.foldl_nil, applyStatEvent,
    updateStats]
  split <;> simp

/-- C4: (a) on every exit path — early return on failed deferred
acknowledgement included — a handler issues exactly the stats-start update
followed by exactly one stats-end update; (b) no single `updateStats` call
ever decreases the total count (so it is monotonically non-decreasing
across any command sequence); (c) after any sequence of complete handler
executions drains, the active count is back to 0 and the total count equals
the number of executions. -/
theorem stats_start_end_pairing :
    (∀ (ackOk : Bool) (r : ExecResult) (d : Int),
        statEventsOf (handlerActs ackOk r d) =
          [StatEvent.start, StatEvent.finish d]) ∧
    (∀ (s : CommandStats) (e : StatEvent),
        s.totalCommands ≤ (applyStatEvent s e).totalCommands) ∧
    (∀ runs : List (Bool × ExecResult × Int),
        (applyStatTrace CommandStats.init
            ((runs.map fun run =>
              statEventsOf (handlerActs run.1 run.2.1 run.2.2)).flatten)).activeCommands
          = 0 ∧
        (applyStatTrace CommandStats.init
            ((runs.map fun run =>
              statEventsOf (handlerActs run.1 run.2.1 run.2.2)).flatten)).totalCommands
          = runs.length) := by
  refine ⟨fun ackOk r d => by cases ackOk <;> rfl, ?_, ?_⟩
  · intro s e
    cases e <;>
      · simp only [applyStatEvent, updateStats]
        split <;> simp
  · intro runs
    suffices h : ∀ (s : CommandStats),
        (applyStatTrace s
            ((runs.map fun run =>
              statEventsOf (handlerActs run.1 run.2.1 run.2.2)).flatten)).activeCommands
          = s.activeCommands ∧
        (applyStatTrace s
            ((runs.map fun run =>
              statEventsOf (handlerActs run.1 run.2.1 run.2.2)).flatten)).totalCommands
          = s.totalCommands + runs.length by
      have := h CommandStats.init
      simpa [CommandStats.init] using this
    induction runs with
    | nil => intro s; simp [applyStatTrace]
    | cons run rest ih =>
        intro s
        simp only [List.map_cons, List.flatten_cons, applyStatTrace_append]
        have h1 := statTrace_one_run s run.1 run.2.1 run.2.2
        have h2 := ih (applyStatTrace s (statEventsOf (handlerActs run.1 run.2.1 run.2.2)))
        rw [h2.1, h2.2, h1.1, h1.2]
        simp
        omega

/-- If the business result arrives strictly before the deadline, the select
deterministically delivers it. -/
theorem selectRace_result_of_lt {dl t : Int} {done r : ExecResult} (h : t < dl) :
    SelectRace dl t done r ↔ r = done := by
  constructor
  · intro hr
    cases hr with
    | resultFirst _ => rfl
    | deadlineFirst hle => exact absurd h (not_lt.mpr hle)
  · rintro rfl
    exact SelectRace.resultFirst (le_of_lt h)

/-- If the deadline elapses strictly before the business result arrives,
the select deterministically delivers the timeout response. -/
theorem selectRace_timeout_of_lt {dl t : Int} {done r : ExecResult} (h : dl < t) :
    SelectRace dl t done r ↔ r = ExecResult.timeout := by
  constructor
  · intro hr
    cases hr with
    | resultFirst hle => exact absurd h (not_lt.mpr hle)
    | deadlineFirst _ => rfl
  · rintro rfl
    exact SelectRace.deadlineFirst (le_of_lt h)

/-- C3: AddPlayer executions race their business call against a 30-second
deadline and ListPlayers executions against a 10-second deadline; when the
business call completes first the response is its own Success/Failure
classification, and when the deadline elapses first the response is
Timeout, not the eventual late result. -/
theorem deadline_race (k : CmdKind) (t : Int) (res : Except String Player)
    (resL : Except String (List Player)) :
    commandTimeout CmdKind.addPlayer = 30 * second ∧
    commandTimeout CmdKind.listPlayers = 10 * second ∧
    (∀ r : ExecResult, t < commandTimeout k →
        ((SelectRace (commandTimeout k) t (classifyAdd res) r ↔
            r = classifyAdd res) ∧
         (SelectRace (commandTimeout k) t (classifyList resL) r ↔
            r = classifyList resL))) ∧
    (∀ r : ExecResult, commandTimeout k < t →
        ((SelectRace (commandTimeout k) t (classifyAdd res) r ↔
            r = ExecResult.timeout) ∧
         (SelectRace (commandTimeout k) t (classifyList resL) r ↔
            r = ExecResult.timeout))) := by
  refine ⟨rfl, rfl, ?_, ?_⟩
  · intro r h
    exact ⟨selectRace_result_of_lt h, selectRace_result_of_lt h⟩
  · intro r h
    exact ⟨selectRace_timeout_of_lt h, selectRace_timeout_of_lt h⟩

/-- C3 witness: the spec's scenario — a ListPlayers fetch that would
complete at 15 s against the 10-second budget yields the Timeout
response. -/
theorem deadline_race_witness :
    SelectRace (commandTimeout CmdKind.listPlayers) (15 * second)
      (classifyList (Except.ok [])) ExecResult.timeout :=
  (((deadline_race CmdKind.listPlayers (15 * second)
        (Except.ok ⟨"puuid", "Pseudo", "Tag", "euw1", 30, "GOLD", "II", 10, 1, 1⟩)
        (Except.ok [])).2.2.2
      ExecResult.timeout (by decide)).2).mpr rfl

/-- C2 counterexample: a concrete admitted AddPlayer whose deadline (30 s)
fires before the business call would complete (its store write alone needs
60 s).  Contrary to the claim, the call is NOT allowed to run to
completion: the shared timeout context aborts it at the deadline
(finish instant 30 s, not 64 s), the player is never written to the
store, and the goroutine delivers a "context deadline exceeded" error. -/
theorem addPlayer_timeout_cancelled_counterexample :
    (addPlayerTimed (processAddPlayerDeadline 0) 0
        ⟨second, second, second, second, 60 * second⟩
        "Pseudo" "Tag" "euw1" false
        ⟨"puuid", "Pseudo", "Tag", "euw1", 30, "GOLD", "II", 10, 1, 1⟩).storeWritten
      = false ∧
    (addPlayerTimed (processAddPlayerDeadline 0) 0
        ⟨second, second, second, second, 60 * second⟩
        "Pseudo" "Tag" "euw1" false
        ⟨"puuid", "Pseudo", "Tag", "euw1", 30, "GOLD", "II", 10, 1, 1⟩).finishedAt
      = 30 * second ∧
    (addPlayerTimed (processAddPlayerDeadline 0) 0
        ⟨second, second, second, second, 60 * second⟩
        "Pseudo" "Tag" "euw1" false
        ⟨"puuid", "Pseudo", "Tag", "euw1", 30, "GOLD", "II", 10, 1, 1⟩).result
      = Except.error "failed to save player: context deadline exceeded" := by
  refine ⟨rfl, by decide, rfl⟩

/-- C2 (amended): `processAddPlayer` passes the SAME deadline-carrying
context into `PlayerService.AddPlayer`, so whenever the deadline fires
before the business call completes, the call is cancelled rather than run
to completion: it stops exactly at the deadline, returns an error, and the
store write never happens — while the select delivers the Timeout response
(the goroutine's late error is abandoned, never read). -/
theorem addPlayer_timeout_cancels_call (t0 : Int) (dur : AddPlayerDurations)
    (g tl sv : String) (tracked : Bool) (fetched : Player)
    (run : AddPlayerRun)
    (hrun : addPlayerTimed (processAddPlayerDeadline t0) t0 dur g tl sv
      tracked fetched = run)
    (hlate : processAddPlayerDeadline t0 ≤ run.finishedAt) :
    run.storeWritten = false ∧
    (∃ e, run.result = Except.error e) ∧
    run.finishedAt = processAddPlayerDeadline t0 ∧
    SelectRace (processAddPlayerDeadline t0) run.finishedAt
      (classifyAdd run.result) ExecResult.timeout := by
  have hsec : (0 : Int) < second := by decide
  have hD : processAddPlayerDeadline t0 = t0 + 30 * second := rfl
  obtain ⟨res, fin, wr⟩ := run
  simp only [] at hlate ⊢
  simp only [addPlayerTimed, ctxOpAbortsAt] at hrun
  split_ifs at hrun <;>
    · injection hrun with hres hfin hwr
      subst hres; subst hfin; subst hwr
      first
        | exact ⟨rfl, ⟨_, rfl⟩, by omega, SelectRace.deadlineFirst hlate⟩
        | (exfalso; omega)

/-- C2 witness for the amended theorem, at the counterexample's input. -/
theorem addPlayer_timeout_cancels_call_witness :
    (addPlayerTimed (processAddPlayerDeadline 0) 0
        ⟨second, second, second, second, 60 * second⟩
        "Pseudo" "Tag" "euw1" false
        ⟨"puuid2", "Pseudo", "Tag", "euw1", 30, "GOLD", "II", 10, 1, 1⟩).storeWritten
      = false ∧
    (∃ e, (addPlayerTimed (processAddPlayerDeadline 0) 0
        ⟨second, second, second, second, 60 * second⟩
        "Pseudo" "Tag" "euw1" false
        ⟨"puuid2", "Pseudo", "Tag", "euw1", 30, "GOLD", "II", 10, 1, 1⟩).result
      = Except.error e) ∧
    (addPlayerTimed (processAddPlayerDeadline 0) 0
        ⟨second, second, second, second, 60 * second⟩
        "Pseudo" "Tag" "euw1" false
        ⟨"puuid2", "Pseudo", "Tag", "euw1", 30, "GOLD", "II", 10, 1, 1⟩).finishedAt
      = processAddPlayerDeadline 0 ∧
    SelectRace (processAddPlayerDeadline 0)
      (addPlayerTimed (processAddPlayerDeadline 0) 0
        ⟨second, second, second, second, 60 * second⟩
        "Pseudo" "Tag" "euw1" false
        ⟨"puuid2", "Pseudo", "Tag", "euw1", 30, "GOLD", "II", 10, 1, 1⟩).finishedAt
      (classifyAdd (addPlayerTimed (processAddPlayerDeadline 0) 0
        ⟨second, second, second, second, 60 * second⟩
        "Pseudo" "Tag" "euw1" false
        ⟨"puuid2", "Pseudo", "Tag", "euw1", 30, "GOLD", "II", 10, 1, 1⟩).result)
      ExecResult.timeout :=
  addPlayer_timeout_cancels_call 0
    ⟨second, second, second, second, 60 * second⟩
    "Pseudo" "Tag" "euw1" false
    ⟨"puuid2", "Pseudo", "Tag", "euw1", 30, "GOLD", "II", 10, 1, 1⟩
    (addPlayerTimed (processAddPlayerDeadline 0) 0
      ⟨second, second, second, second, 60 * second⟩
      "Pseudo" "Tag" "euw1" false
      ⟨"puuid2", "Pseudo", "Tag", "euw1", 30, "GOLD", "II", 10, 1, 1⟩)
    rfl (by decide)

/-- Final store contents after the batch: each player whose update
succeeds is persisted with its new record, each player whose update fails
keeps its old record — independently of the other players' outcomes. -/
theorem updateAllLoop_store (upd : Player → Except String Player)
    (players : List Player) :
    (updateAllLoop upd players).store =
      players.map (fun p => match upd p with | .ok p' => p' | .error _ => p) := by
  induction players with
  | nil => rfl
  | cons p rest ih => cases h : upd p <;> simp [updateAllLoop, h, ih]

/-- The accumulated error messages are exactly one formatted message per
failed player, in batch order. -/
theorem updateAllLoop_errs (upd : Player → Except String Player)
    (players : List Player) :
    (updateAllLoop upd players).errs =
      players.filterMap (fun p =>
        match upd p with
        | .ok _ => none
        | .error e =>
            some ("Failed to update player " ++ playerLabel p ++ ": " ++ e)) := by
  induction players with
  | nil => rfl
  | cons p rest ih => cases h : upd p <;> simp [updateAllLoop, h, ih]

/-- No error message is accumulated iff every player's update succeeded. -/
theorem updateAllLoop_errs_nil_iff (upd : Player → Except String Player)
    (players : List Player) :
    (updateAllLoop upd players).errs = [] ↔
      ∀ p ∈ players, ∀ e, upd p ≠ Except.error e := by
  induction players with
  | nil => simp [updateAllLoop]
  | cons p rest ih =>
      cases h : upd p with
      | error e => simp_all [updateAllLoop, h]
      | ok p' => simp_all [updateAllLoop, h]

/-- Every successful update action is immediately followed by the
one-second pacing sleep. -/
theorem updateAllLoop_sleepAfterSuccess (upd : Player → Except String Player)
    (players : List Player) :
    sleepAfterSuccess (updateAllLoop upd players).acts = true := by
  induction players with
  | nil => rfl
  | cons p rest ih =>
      cases h : upd p with
      | error e => simpa [updateAllLoop, h, sleepAfterSuccess] using ih
      | ok p' => simpa [updateAllLoop, h, sleepAfterSuccess] using ih

/-- The aggregate result is an error iff at least one player failed. -/
theorem updateAllPlayersResult_error_iff (upd : Player → Except String Player)
    (players : List Player) :
    (∃ err, updateAllPlayersResult upd players = Except.error err) ↔
      ∃ p ∈ players, ∃ e, upd p = Except.error e := by
  by_cases h : (updateAllLoop upd players).errs = []
  · have hall := (updateAllLoop_errs_nil_iff upd players).mp h
    simp only [updateAllPlayersResult, h, List.isEmpty_nil, if_true]
    constructor
    · rintro ⟨err, herr⟩
      exact absurd herr (by simp)
    · rintro ⟨p, hp, e, he⟩
      exact absurd he (hall p hp e)
  · have hne : (updateAllLoop upd players).errs.isEmpty = false := by
      cases hE : (updateAllLoop upd players).errs with
      | nil => exact absurd hE h
      | cons a l => rfl
    simp only [updateAllPlayersResult, hne, Bool.false_eq_true, if_false]
    constructor
    · intro _
      by_contra hno
      push_neg at hno
      exact h ((updateAllLoop_errs_nil_iff upd players).mpr
        (fun p hp e he => hno p hp e he))
    · intro _
      exact ⟨_, rfl⟩

/-- C7 counterexample: a two-player batch whose first update fails.  The
action trace is `update Beta (failed); update Alpha; sleep`: the two
update actions are ADJACENT — the `continue` taken on failure skips the
`time.Sleep`, so there is no fixed 1-second delay between those two
updates, contrary to the claim's pacing conjunct. -/
theorem refreshAll_pacing_counterexample :
    (updateAllLoop failBeta
        [⟨"u2", "Beta", "2", "euw1", 10, "GOLD", "I", 1, 0, 0⟩,
         ⟨"u1", "Alpha", "1", "euw1", 10, "GOLD", "I", 1, 0, 0⟩]).acts =
      [RefreshAct.update "Beta#2" false, RefreshAct.update "Alpha#1" true,
       RefreshAct.sleepOneSec] ∧
    noAdjacentUpdates
        (updateAllLoop failBeta
          [⟨"u2", "Beta", "2", "euw1", 10, "GOLD", "I", 1, 0, 0⟩,
           ⟨"u1", "Alpha", "1", "euw1", 10, "GOLD", "I", 1, 0, 0⟩]).acts =
      false := by
  decide

/-- C7 (amended): `UpdateAllPlayers` iterates every tracked record
sequentially, pacing each SUCCESSFUL update with a one-second sleep (a
failed update skips the sleep and proceeds directly to the next player),
accumulates per-player errors without aborting the batch, and returns an
aggregate error naming the failed players iff at least one update failed;
players whose updates succeed are persisted even when others in the same
batch fail — in particular, over the three-player sample with player 2
(`Beta`) failing, players 1 and 3 are updated in the store and the
aggregate error names exactly `Beta#2`. -/
theorem refreshAll_batch (upd : Player → Except String Player)
    (players : List Player) :
    (updateAllLoop upd players).store =
      players.map (fun p => match upd p with | .ok p' => p' | .error _ => p) ∧
    (updateAllLoop upd players).errs =
      players.filterMap (fun p =>
        match upd p with
        | .ok _ => none
        | .error e =>
            some ("Failed to update player " ++ playerLabel p ++ ": " ++ e)) ∧
    ((∃ err, updateAllPlayersResult upd players = Except.error err) ↔
      ∃ p ∈ players, ∃ e, upd p = Except.error e) ∧
    sleepAfterSuccess (updateAllLoop upd players).acts = true ∧
    (updateAllLoop failBeta samplePlayers).store =
      [⟨"u1", "Alpha", "1", "euw1", 11, "GOLD", "I", 1, 0, 0⟩,
       ⟨"u2", "Beta", "2", "euw1", 10, "GOLD", "I", 1, 0, 0⟩,
       ⟨"u3", "Gamma", "3", "euw1", 11, "GOLD", "I", 1, 0, 0⟩] ∧
    (updateAllLoop failBeta samplePlayers).errs =
      ["Failed to update player Beta#2: upstream failure"] ∧
    updateAllPlayersResult failBeta samplePlayers =
      Except.error
        "some players failed to update: [Failed to update player Beta#2: upstream failure]" :=
  ⟨updateAllLoop_store upd players, updateAllLoop_errs upd players,
    updateAllPlayersResult_error_iff upd players,
    updateAllLoop_sleepAfterSuccess upd players,
    rfl, rfl, rfl⟩

/-- C9: `FindByRiotID` returns `ok none` — nil player AND nil error — when
no record matches the (gameName, tagLine, server) triple; it returns an
error exactly when the store itself fails; and `AddPlayer`'s pre-check
relies on this convention: only the `ok none` (absent) outcome proceeds to
the provider lookup, while `ok (some _)` aborts as already-tracked and a
pre-check error aborts as a check failure. -/
theorem findByRiotID_nil_convention (storeErr : Option String)
    (store : List Player) (g t sv : String)
    (lookupRes : Except String Player) (createRes : Except String Unit) :
    (store.find? (matchesRiotID g t sv) = none →
      findByRiotID none store g t sv = Except.ok none) ∧
    (∀ e, findByRiotID (some e) store g t sv =
      Except.error ("failed to find player: " ++ e)) ∧
    ((∃ e, findByRiotID storeErr store g t sv = Except.error e) ↔
      storeErr ≠ none) ∧
    (addPlayerFlow g t sv (Except.ok none) lookupRes createRes =
      addPlayerProceed lookupRes createRes) ∧
    (∀ p, addPlayerFlow g t sv (Except.ok (some p)) lookupRes createRes =
      Except.error ("player " ++ g ++ "#" ++ t ++ " (" ++ sv ++
        ") is already being tracked")) ∧
    (∀ e, addPlayerFlow g t sv (Except.error e) lookupRes createRes =
      Except.error ("failed to check existing player: " ++ e)) := by
  refine ⟨?_, ?_, ?_, rfl, fun p => rfl, fun e => rfl⟩
  · intro h
    simp [findByRiotID, h]
  · intro e
    rfl
  · cases storeErr with
    | some e => simp [findByRiotID]
    | none =>
        cases h : store.find? (matchesRiotID g t sv) <;> simp [findByRiotID, h]

/-- C9 witness: an empty healthy store yields `ok none` for a concrete
triple, and the pre-check's `ok none` outcome proceeds to the lookup. -/
theorem findByRiotID_nil_convention_witness :
    findByRiotID none [] "Pseudo" "Tag" "euw1" = Except.ok none ∧
    addPlayerFlow "Pseudo" "Tag" "euw1" (Except.ok none)
        (Except.error "player not found: no account")
        (Except.ok ()) =
      addPlayerProceed (Except.error "player not found: no account")
        (Except.ok ()) :=
  ⟨(findByRiotID_nil_convention none [] "Pseudo" "Tag" "euw1"
      (Except.error "player not found: no account") (Except.ok ())).1 rfl,
   (findByRiotID_nil_convention none [] "Pseudo" "Tag" "euw1"
      (Except.error "player not found: no account") (Except.ok ())).2.2.2.1⟩

/-- Closed form of the body loop: starting at index `idx ≤ 20` it renders
the first `20 - idx` players and appends the truncation line exactly when
players are left over. -/
theorem playersBody_closed (total : Nat) (l : List Player) :
    ∀ idx : Nat, idx ≤ 20 →
      playersBody total l idx =
        concatAll ((l.take (20 - idx)).map playerEntry) ++
          (if 20 - idx < l.length then morePlayersLine total else "") := by
  induction l with
  | nil =>
      intro idx h
      simp [playersBody, concatAll]
  | cons p rest ih =>
      intro idx h
      rcases Nat.lt_or_ge idx 20 with hlt | hge
      · have hstep : 20 - idx = (20 - (idx + 1)) + 1 := by omega
        calc playersBody total (p :: rest) idx
            = playerEntry p ++ playersBody total rest (idx + 1) := by
              simp [playersBody, Nat.not_le.mpr hlt]
          _ = playerEntry p ++
                (concatAll ((rest.take (20 - (idx + 1))).map playerEntry) ++
                  (if 20 - (idx + 1) < rest.length then morePlayersLine total
                   else "")) := by
              rw [ih (idx + 1) (by omega)]
          _ = concatAll (((p :: rest).take (20 - idx)).map playerEntry) ++
                (if 20 - idx < (p :: rest).length then morePlayersLine total
                 else "") := by
              rw [hstep, List.take_succ_cons]
              simp [concatAll, String.append_assoc, Nat.succ_lt_succ_iff]
      · have hidx : idx = 20 := le_antisymm h hge
        subst hidx
        simp [playersBody, concatAll]

/-- C10: the rendered ListPlayers response — the empty list gets the
dedicated "no players tracked" message; otherwise the header carries the
FULL count, the body enumerates only the first 20 players, and exactly
when more than 20 are tracked a final `... and K more players` line with
`K = length - 20` is appended. -/
theorem sendPlayersList_spec (players : List Player) :
    (players = [] →
      sendPlayersList players =
        "📭 No players tracked yet!\nUse `/add_player` to start tracking.") ∧
    (players ≠ [] →
      sendPlayersList players =
        "📋 **Tracked Players (" ++ toString players.length ++ ")**\n\n" ++
          (concatAll ((players.take 20).map playerEntry) ++
            (if 20 < players.length then morePlayersLine players.length
             else ""))) := by
  constructor
  · rintro rfl
    rfl
  · intro h
    have hlen : ¬ players.length = 0 := by
      simpa [List.length_eq_zero] using h
    rw [sendPlayersList, if_neg hlen]
    have hbody := playersBody_closed players.length players 0 (by omega)
    rw [Nat.sub_zero] at hbody
    rw [hbody]

/-- C10 witness: the empty list and a concrete singleton list rendered per
the closed form. -/
theorem sendPlayersList_spec_witness :
    sendPlayersList [] =
      "📭 No players tracked yet!\nUse `/add_player` to start tracking." ∧
    sendPlayersList [⟨"u9", "Solo", "9", "euw1", 5, "UNRANKED", "", 0, 0, 0⟩] =
      "📋 **Tracked Players (" ++
          toString ([⟨"u9", "Solo", "9", "euw1", 5, "UNRANKED", "", 0, 0, 0⟩] :
            List Player).length ++ ")**\n\n" ++
        (concatAll ((([⟨"u9", "Solo", "9", "euw1", 5, "UNRANKED", "", 0, 0,
            0⟩] : List Player).take 20).map playerEntry) ++
          (if 20 < ([⟨"u9", "Solo", "9", "euw1", 5, "UNRANKED", "", 0, 0, 0⟩] :
              List Player).length then
            morePlayersLine ([⟨"u9", "Solo", "9", "euw1", 5, "UNRANKED", "", 0,
              0, 0⟩] : List Player).length
           else "")) :=
  ⟨(sendPlayersList_spec []).1 rfl,
   (sendPlayersList_spec [⟨"u9", "Solo", "9", "euw1", 5, "UNRANKED", "", 0, 0,
      0⟩]).2 (by simp)⟩

end LpTracker
